import Mathlib

/-!
Shallow embedding of the turbo-tosec-gui browsing core:

* `DatabaseManager` (src/src/turbo_skryer/core/database.py): a read-only
  DuckDB wrapper offering `connect`, `get_total_count`, `fetch_data` and
  `get_distinct_values` over a single table `roms`.  Queries are modelled
  as explicit data (`FetchQuery`) evaluated against an abstract `Store`
  (the table contents plus fault-injection flags for transient failures);
  each Python `try`/`except` block becomes an `Except` value that the
  wrapper catches.

* `InfiniteTableModel` (src/src/turbo-skryer/ui/models.py): the sliding
  window cache.  Its Qt-facing read path `data(index, DisplayRole)` is
  modelled as `value`, which also records the list of `fetch_data` calls
  it issues so that fetch counts can be stated.

Machine integers are `Int`/`Nat` (Python integers are unbounded), Python
list indexing is `pyGet` (negative indices wrap, out-of-range is `none`),
and an uncaught Python exception is `none` at the operation level.
-/

/-! ## Cell values (DuckDB scalars) -/

/-- An opaque scalar stored in a cell: text or integer.  NULL is `none`
at the `Cell` level. -/
inductive Val where
  | vstr (s : String)
  | vint (n : Int)
deriving DecidableEq, Repr

abbrev Cell := Option Val

abbrev DBRow := List Cell

/-- Python `str(v)` for the values the store can hold. -/
def valToString : Val → String
  | .vstr s => s
  | .vint n => toString n

/-- models.py line 81: `str(val) if val is not None else ""`. -/
def renderCell : Cell → String
  | none => ""
  | some v => valToString v

/-- Python list indexing `l[i]`: out of range raises IndexError (`none`),
a negative index in `[-len, -1]` wraps from the end. -/
def pyGet (l : List α) (i : Int) : Option α :=
  if 0 ≤ i then l[i.toNat]?
  else if 0 ≤ i + l.length then l[(i + (l.length : Int)).toNat]?
  else none

/-! ## The backing store and query evaluation -/

/-- The `roms` table contents plus fault-injection flags modelling
transient DuckDB failures of the three query kinds. -/
structure Store where
  schema : List String
  rows : List DBRow
  countFails : Bool := false
  fetchFails : Bool := false
  distinctFails : Bool := false
deriving Repr

/-- The `DatabaseManager` after `connect`: the store handle plus the
cached `_column_names`. -/
structure DBManager where
  store : Store
  columns : List String
deriving Repr

/-- Index of a column name in a schema (SQL name resolution). -/
def colIndex (schema : List String) (c : String) : Option Nat :=
  schema.findIdx? (fun s => s == c)

/-- Cell of a row at a schema position (a ragged row reads as NULL;
rows produced by `SELECT *` always have full length). -/
def getCell (r : DBRow) (i : Nat) : Cell := (r[i]?).getD none

/-- Does the pattern match at the head of the character list? -/
def leadMatch : List Char → List Char → Bool
  | [], _ => true
  | _ :: _, [] => false
  | x :: xs, y :: ys => x == y && leadMatch xs ys

/-- Does the pattern occur anywhere in the character list? -/
def subMatch (pat : List Char) : List Char → Bool
  | [] => leadMatch pat []
  | y :: ys => leadMatch pat (y :: ys) || subMatch pat ys

/-- Case-insensitive substring test: the semantics of `x ILIKE '%pat%'`
for the plain-text patterns the UI passes down. -/
def ilikeContains (s pat : String) : Bool :=
  subMatch pat.toLower.toList s.toLower.toList

/-- `cell ILIKE '%pat%'`: NULL never matches. -/
def cellMatches (c : Cell) (pat : String) : Bool :=
  match c with
  | none => false
  | some v => ilikeContains (valToString v) pat

/-- `DatabaseManager._build_where_clause`: one `col ILIKE ?` condition per
filter entry with a non-empty value (empty values are skipped). -/
def whereConds (filters : List (String × String)) : List (String × String) :=
  filters.filter (fun p => p.2 != "")

/-- All condition columns resolve in the schema (otherwise the store
rejects the query as a binder error). -/
def condsValid (schema : List String) (conds : List (String × String)) : Bool :=
  conds.all (fun p => (colIndex schema p.1).isSome)

/-- A row satisfies every ILIKE condition. -/
def rowMatches (schema : List String) (conds : List (String × String)) (r : DBRow) : Bool :=
  conds.all (fun p =>
    match colIndex schema p.1 with
    | some i => cellMatches (getCell r i) p.2
    | none => false)

/-- Evaluate the WHERE clause; an unresolvable column is a query error. -/
def evalWhere (st : Store) (conds : List (String × String)) : Except Unit (List DBRow) :=
  if condsValid st.schema conds then .ok (st.rows.filter (rowMatches st.schema conds))
  else .error ()

/-- `SELECT COUNT(*) FROM roms [WHERE ...]` against the store. -/
def execCount (st : Store) (conds : List (String × String)) : Except Unit Nat :=
  if st.countFails then .error ()
  else (evalWhere st conds).map List.length

/-- `DatabaseManager.get_total_count`: the count query under the current
filters; any failure is caught and degraded to 0. -/
def get_total_count (db : DBManager) (filters : List (String × String)) : Nat :=
  match execCount db.store (whereConds filters) with
  | .ok n => n
  | .error _ => 0

/-! ### Ordering (the ORDER BY clause) -/

/-- A total comparison on cells used to model the store's ORDER BY:
NULLs first, integers before strings, then the value order. -/
def cellLE (a b : Cell) : Bool :=
  match a, b with
  | none, _ => true
  | some _, none => false
  | some (.vint m), some (.vint n) => m ≤ n
  | some (.vint _), some (.vstr _) => true
  | some (.vstr _), some (.vint _) => false
  | some (.vstr s), some (.vstr t) => s ≤ t

/-- Insertion step of insertion sort. -/
def insertLE (le : α → α → Bool) (x : α) : List α → List α
  | [] => [x]
  | y :: ys => if le x y then x :: y :: ys else y :: insertLE le x ys

/-- Insertion sort by a boolean comparison (the model of ORDER BY). -/
def sortLE (le : α → α → Bool) : List α → List α
  | [] => []
  | x :: xs => insertLE le x (sortLE le xs)

/-- Row comparison for `ORDER BY col ASC|DESC` at schema position `i`. -/
def rowLE (i : Nat) (asc : Bool) (a b : DBRow) : Bool :=
  if asc then cellLE (getCell a i) (getCell b i) else cellLE (getCell b i) (getCell a i)

/-! ### The slice query -/

/-- The query `DatabaseManager.fetch_data` builds:
WHERE conditions, an optional ORDER BY, then LIMIT/OFFSET. -/
structure FetchQuery where
  conds : List (String × String)
  orderBy : Option (String × Bool)
  limit : Int
  offset : Int
deriving Repr, DecidableEq

/-- database.py line 80: `if sort_col and sort_col in self._column_names` —
the ORDER BY clause is appended only when `sort_col` is truthy (not None
and not the empty string) and among the cached column names. -/
def effOrderBy (db : DBManager) (sortCol : Option String) (sortAsc : Bool) :
    Option (String × Bool) :=
  match sortCol with
  | some s => if s != "" && db.columns.contains s then some (s, sortAsc) else none
  | none => none

/-- Query construction in `DatabaseManager.fetch_data`. -/
def buildFetchQuery (db : DBManager) (limit offset : Int)
    (filters : List (String × String)) (sortCol : Option String) (sortAsc : Bool) :
    FetchQuery :=
  { conds := whereConds filters
    orderBy := effOrderBy db sortCol sortAsc
    limit := limit
    offset := offset }

/-- Evaluate a slice query against the store: filter, optionally sort,
then OFFSET-skip and LIMIT-take.  An ORDER BY column missing from the
store schema is a query error, as is the fault-injection flag. -/
def execFetch (st : Store) (q : FetchQuery) : Except Unit (List DBRow) :=
  if st.fetchFails then .error ()
  else
    match evalWhere st q.conds with
    | .error _ => .error ()
    | .ok rs =>
      match q.orderBy with
      | none => .ok ((rs.drop q.offset.toNat).take q.limit.toNat)
      | some (c, asc) =>
        match colIndex st.schema c with
        | some i => .ok (((sortLE (rowLE i asc) rs).drop q.offset.toNat).take q.limit.toNat)
        | none => .error ()

/-- `DatabaseManager.fetch_data`: builds the slice query and runs it;
any failure is caught and degraded to the empty list. -/
def fetch_data (db : DBManager) (limit offset : Int) (filters : List (String × String))
    (sortCol : Option String) (sortAsc : Bool) : List DBRow :=
  match execFetch db.store (buildFetchQuery db limit offset filters sortCol sortAsc) with
  | .ok rs => rs
  | .error _ => []

/-- `SELECT DISTINCT column FROM roms ORDER BY column` against the store. -/
def execDistinct (st : Store) (column : String) : Except Unit (List Cell) :=
  if st.distinctFails then .error ()
  else
    match colIndex st.schema column with
    | some i => .ok (sortLE cellLE ((st.rows.map (fun r => getCell r i)).dedup))
    | none => .error ()

/-- `DatabaseManager.get_distinct_values`: unknown column gives `[]`
before any query; a query failure is caught and degraded to `[]`;
otherwise the sorted distinct values with NULLs dropped. -/
def get_distinct_values (db : DBManager) (column : String) : List Val :=
  if db.columns.contains column = false then []
  else
    match execDistinct db.store column with
    | .ok cells => cells.filterMap id
    | .error _ => []

/-! ### Connecting -/

/-- The environment `DatabaseManager.connect` runs in: whether
`duckdb.connect` itself raises, and whether the `roms` table is absent
(which makes the schema probe raise). -/
structure StoreEnv where
  openFails : Bool
  tableMissing : Bool
  store : Store
deriving Repr

/-- `DatabaseManager._load_column_names`: the `SELECT * FROM roms LIMIT 0`
probe; a missing table raises `duckdb.Error`, which the method catches,
leaving the column list empty. -/
def loadColumnNames (env : StoreEnv) : List String :=
  if env.tableMissing then [] else env.store.schema

/-- `DatabaseManager.connect`: `duckdb.connect` may raise and that error
propagates to the caller; the schema load that follows never raises. -/
def connect (env : StoreEnv) : Except Unit DBManager :=
  if env.openFails then .error ()
  else .ok { store := env.store, columns := loadColumnNames env }

/-! ## InfiniteTableModel (the sliding window cache) -/

/-- `InfiniteTableModel.PAGE_SIZE`. -/
def PAGE_SIZE : Int := 2000

/-- The mutable state of `InfiniteTableModel`. -/
structure ModelState where
  db : DBManager
  totalRows : Nat
  filters : List (String × String)
  sortColName : Option String
  sortAsc : Bool
  cacheData : List DBRow
  cacheOffset : Int
  cacheValid : Bool
deriving Repr

/-- `InfiniteTableModel.refresh`: recount under the current filters and
invalidate the cache. -/
def refresh (m : ModelState) : ModelState :=
  { m with totalRows := get_total_count m.db m.filters
           cacheValid := false
           cacheData := []
           cacheOffset := -1 }

/-- `InfiniteTableModel.__init__`: zeroed state, then `refresh()`. -/
def initModel (db : DBManager) : ModelState :=
  refresh { db := db, totalRows := 0, filters := [], sortColName := none,
            sortAsc := true, cacheData := [], cacheOffset := -1, cacheValid := false }

/-- `InfiniteTableModel.rowCount`. -/
def rowCount (m : ModelState) : Nat := m.totalRows

/-- `InfiniteTableModel.columnCount`. -/
def columnCount (m : ModelState) : Nat := m.db.columns.length

/-- `InfiniteTableModel._is_row_in_cache`. -/
def isRowInCache (m : ModelState) (row : Int) : Bool :=
  if !m.cacheValid || m.cacheData.isEmpty then false
  else decide (m.cacheOffset ≤ row ∧ row < m.cacheOffset + (m.cacheData.length : Int))

/-- The page-aligned fetch offset of `_fetch_page_containing`:
`(row_index // PAGE_SIZE) * PAGE_SIZE` with Python floor division. -/
def pageStartOf (row : Int) : Int := Int.fdiv row PAGE_SIZE * PAGE_SIZE

/-- One recorded call to `DatabaseManager.fetch_data`. -/
structure FetchCall where
  limit : Int
  offset : Int
  filters : List (String × String)
  sortCol : Option String
  sortAsc : Bool
deriving Repr, DecidableEq

/-- The fetch call `_fetch_page_containing` issues for a row. -/
def mkFetchCall (m : ModelState) (row : Int) : FetchCall :=
  { limit := PAGE_SIZE, offset := pageStartOf row, filters := m.filters
    sortCol := m.sortColName, sortAsc := m.sortAsc }

/-- `InfiniteTableModel._fetch_page_containing`: fetch the aligned page
and replace the window wholesale. -/
def fetchPageContaining (m : ModelState) (row : Int) : ModelState :=
  { m with
      cacheData := fetch_data m.db PAGE_SIZE (pageStartOf row) m.filters m.sortColName m.sortAsc
      cacheOffset := pageStartOf row
      cacheValid := true }

/-- The bounds check establishing that `index(row, col)` is a valid
QModelIndex: `QAbstractItemModel.hasIndex` requires
`0 ≤ row < rowCount` and `0 ≤ col < columnCount`. -/
def inBounds (m : ModelState) (row col : Int) : Bool :=
  decide (0 ≤ row ∧ row < (rowCount m : Int) ∧ 0 ≤ col ∧ col < (columnCount m : Int))

/-- The cache read of `data`: `local_index = row - self._cache_offset`,
then `self._cache_data[local_index][col]` inside `try`/`except IndexError`
(`none` is the caught-IndexError fallback, models.py lines 72-85). -/
def readCache (m : ModelState) (row col : Int) : Option String :=
  match pyGet m.cacheData (row - m.cacheOffset) with
  | none => none
  | some r =>
    match pyGet r col with
    | none => none
    | some cell => some (renderCell cell)

/-- Result of one read: the successor state, the returned display value
(`none` is Python `None`, i.e. absent), and the fetch calls issued. -/
structure ValueResult where
  state : ModelState
  result : Option String
  calls : List FetchCall
deriving Repr

/-- `value(row, col)` is `data(index(row, col), DisplayRole)`: an invalid
index returns absent at once; otherwise a cache miss triggers exactly one
page fetch, then the cell is read from the window. -/
def value (m : ModelState) (row col : Int) : ValueResult :=
  if inBounds m row col then
    if isRowInCache m row then
      { state := m, result := readCache m row col, calls := [] }
    else
      { state := fetchPageContaining m row
        result := readCache (fetchPageContaining m row) row col
        calls := [mkFetchCall m row] }
  else { state := m, result := none, calls := [] }

/-- `InfiniteTableModel.sort`: `self.db.columns[column]` is unchecked
Python list indexing; `none` models the uncaught IndexError (a fault). -/
def sortOp (m : ModelState) (column : Int) (asc : Bool) : Option ModelState :=
  match pyGet m.db.columns column with
  | none => none
  | some name => some (refresh { m with sortColName := some name, sortAsc := asc })

/-- Python `del d[k]` for the filter dict (all entries with the key go). -/
def dictDel (d : List (String × String)) (k : String) : List (String × String) :=
  d.filter (fun p => p.1 != k)

/-- Python `d[k] = v`: replace in place if present, else append. -/
def dictSet (d : List (String × String)) (k v : String) : List (String × String) :=
  if d.any (fun p => p.1 == k) then d.map (fun p => if p.1 == k then (k, v) else p)
  else d ++ [(k, v)]

/-- `InfiniteTableModel.set_filter`: an empty pattern deletes the
constraint, a non-empty one sets it; then `refresh()`. -/
def set_filter (m : ModelState) (column pat : String) : ModelState :=
  let fs := if pat = "" then dictDel m.filters column else dictSet m.filters column pat
  refresh { m with filters := fs }

/-- `InfiniteTableModel.clear_filters`. -/
def clear_filters (m : ModelState) : ModelState :=
  refresh { m with filters := [] }

/-- First filter value stored for a column. -/
def lookupFilter (d : List (String × String)) (k : String) : Option String :=
  (d.find? (fun p => p.1 == k)).map (fun p => p.2)

/-- No stored filter constraint is the empty string. -/
def noEmptyVals (d : List (String × String)) : Bool :=
  d.all (fun p => p.2 != "")

/-! ## Context-consistency predicates used as hypotheses -/

/-- The number of store rows matching the model's current filters. -/
def ctxMatchCount (m : ModelState) : Nat :=
  (m.db.store.rows.filter (rowMatches m.db.store.schema (whereConds m.filters))).length

/-- The current query context evaluates without failure: no injected
fetch fault, every filter column resolves, and the effective ORDER BY
column (if any) resolves in the store schema. -/
def goodCtx (m : ModelState) : Bool :=
  !m.db.store.fetchFails &&
  condsValid m.db.store.schema (whereConds m.filters) &&
  (match effOrderBy m.db m.sortColName m.sortAsc with
   | some p => (colIndex m.db.store.schema p.1).isSome
   | none => true)

/-- Every cached row has one cell per model column (true of rows coming
from `SELECT *` when the cached schema matches the store's). -/
def rowsWF (m : ModelState) : Bool :=
  m.cacheData.all (fun r => r.length == columnCount m)

/-- The spec's reading of "a sort column was given and is known":
`sort.column` is one of the schema's column names. -/
def sortColKnown (db : DBManager) : Option String → Bool
  | some s => db.columns.contains s
  | none => false

/-- The cell the cache read of `data` addresses, before rendering. -/
def cellAtCache (m : ModelState) (row col : Int) : Option Cell :=
  match pyGet m.cacheData (row - m.cacheOffset) with
  | none => none
  | some r => pyGet r col

/-- Reachability of a model state from construction over a fixed
manager, by the operations the presentation layer can drive: reads,
filter changes, successful sorts, and refreshes. -/
inductive Reachable (db : DBManager) : ModelState → Prop
  | init : Reachable db (initModel db)
  | readStep (m : ModelState) (row col : Int) :
      Reachable db m → Reachable db (value m row col).state
  | filterStep (m : ModelState) (c v : String) :
      Reachable db m → Reachable db (set_filter m c v)
  | clearStep (m : ModelState) :
      Reachable db m → Reachable db (clear_filters m)
  | sortSucc (m : ModelState) (c : Int) (asc : Bool) (m' : ModelState) :
      Reachable db m → sortOp m c asc = some m' → Reachable db m'
  | refreshStep (m : ModelState) :
      Reachable db m → Reachable db (refresh m)

/-! ## Concrete fixtures used by witnesses and counterexamples -/

/-- A small healthy store: two columns, two rows, no injected faults. -/
def stW : Store :=
  { schema := ["platform", "title"]
    rows := [[some (Val.vstr "amiga"), some (Val.vint 1)],
             [none, some (Val.vstr "x")]] }

/-- Manager connected to `stW` with the schema loaded. -/
def dbW : DBManager := { store := stW, columns := ["platform", "title"] }

/-- Freshly constructed model over `dbW` (total count 2). -/
def mW : ModelState := initModel dbW

/-- A store whose three query kinds all fail. -/
def dbF : DBManager :=
  { store := { schema := ["a"], rows := [[some (Val.vint 0)]],
               countFails := true, fetchFails := true, distinctFails := true }
    columns := ["a"] }

/-- Environment where the store opens but the `roms` table is absent. -/
def envMissingTable : StoreEnv :=
  { openFails := false, tableMissing := true, store := stW }

/-- A big healthy store: 2500 rows over two columns, so that reads span
two pages of 2000. -/
def stBig : Store :=
  { schema := ["platform", "title"]
    rows := (List.range 2500).map (fun i => [some (Val.vstr "amiga"), some (Val.vint i)]) }

/-- Manager connected to `stBig`. -/
def dbBig : DBManager := { store := stBig, columns := ["platform", "title"] }

/-- Freshly constructed model over `dbBig` (total count 2500). -/
def mBig : ModelState := initModel dbBig

/-! ## Helper lemmas -/

theorem pyGet_of_nonneg (l : List α) (i : Int) (h : 0 ≤ i) :
    pyGet l i = l[i.toNat]? := by
  simp [pyGet, h]

theorem pyGet_eq_none_iff (l : List α) (i : Int) :
    pyGet l i = none ↔ (i + (l.length : Int) < 0 ∨ (l.length : Int) ≤ i) := by
  unfold pyGet
  by_cases h1 : 0 ≤ i
  · rw [if_pos h1, List.getElem?_eq_none_iff]
    omega
  · rw [if_neg h1]
    by_cases h2 : 0 ≤ i + (l.length : Int)
    · rw [if_pos h2, List.getElem?_eq_none_iff]
      omega
    · rw [if_neg h2]
      refine iff_of_true rfl ?_
      omega

theorem pyGet_isSome_iff (l : List α) (i : Int) :
    (pyGet l i).isSome = true ↔ (-(l.length : Int) ≤ i ∧ i < (l.length : Int)) := by
  rw [← Option.ne_none_iff_isSome, ne_eq, pyGet_eq_none_iff]
  omega

theorem insertLE_length (le : α → α → Bool) (x : α) (l : List α) :
    (insertLE le x l).length = l.length + 1 := by
  induction l with
  | nil => rfl
  | cons y ys ih =>
    unfold insertLE
    by_cases h : le x y
    · simp [h]
    · simp [h, ih]

theorem sortLE_length (le : α → α → Bool) (l : List α) :
    (sortLE le l).length = l.length := by
  induction l with
  | nil => rfl
  | cons x xs ih => simp [sortLE, insertLE_length, ih]

/-- Python floor division of a nonnegative numerator by 2000 is Nat
division. -/
theorem fdiv_cast_2000 (n : Nat) : Int.fdiv (n : Int) 2000 = ((n / 2000 : Nat) : Int) := by
  cases n with
  | zero => rfl
  | succ m => rfl

theorem pageStartOf_bounds (row : Int) (h : 0 ≤ row) :
    0 ≤ pageStartOf row ∧ pageStartOf row ≤ row ∧ row < pageStartOf row + PAGE_SIZE := by
  obtain ⟨n, rfl⟩ := Int.eq_ofNat_of_zero_le h
  unfold pageStartOf PAGE_SIZE
  rw [fdiv_cast_2000]
  omega

theorem pageStartOf_dvd (row : Int) : PAGE_SIZE ∣ pageStartOf row :=
  Dvd.intro_left _ rfl

theorem pageStartOf_cast (n : Nat) :
    pageStartOf (n : Int) = ((n / 2000 * 2000 : Nat) : Int) := by
  unfold pageStartOf PAGE_SIZE
  rw [fdiv_cast_2000]
  push_cast
  ring

/-- Rewriting lemma: an out-of-bounds read. -/
theorem value_oob (m : ModelState) (row col : Int) (hb : inBounds m row col = false) :
    value m row col = { state := m, result := none, calls := [] } := by
  simp [value, hb]

/-- Rewriting lemma: a cache hit. -/
theorem value_hit (m : ModelState) (row col : Int) (hb : inBounds m row col = true)
    (hc : isRowInCache m row = true) :
    value m row col = { state := m, result := readCache m row col, calls := [] } := by
  simp [value, hb, hc]

/-- Rewriting lemma: a cache miss. -/
theorem value_miss (m : ModelState) (row col : Int) (hb : inBounds m row col = true)
    (hc : isRowInCache m row = false) :
    value m row col =
      { state := fetchPageContaining m row
        result := readCache (fetchPageContaining m row) row col
        calls := [mkFetchCall m row] } := by
  simp [value, hb, hc]

/-- Any single read issues at most one fetch. -/
theorem value_calls_le_one (m : ModelState) (row col : Int) :
    (value m row col).calls.length ≤ 1 := by
  unfold value
  by_cases hb : inBounds m row col <;> by_cases hc : isRowInCache m row <;> simp [hb, hc]

/-- A successful slice query returns at most `limit` rows. -/
theorem execFetch_length_le (st : Store) (q : FetchQuery) (rs : List DBRow)
    (h : execFetch st q = .ok rs) : rs.length ≤ q.limit.toNat := by
  unfold execFetch at h
  split at h
  · simp at h
  · split at h
    · simp at h
    · split at h
      · simp only [Except.ok.injEq] at h
        subst h
        rw [List.length_take]
        exact Nat.min_le_left _ _
      · split at h
        · simp only [Except.ok.injEq] at h
          subst h
          rw [List.length_take]
          exact Nat.min_le_left _ _
        · simp at h

/-- A fetch never returns more than `limit` rows. -/
theorem fetch_data_length_le (db : DBManager) (limit offset : Int)
    (filters : List (String × String)) (sortCol : Option String) (sortAsc : Bool) :
    (fetch_data db limit offset filters sortCol sortAsc).length ≤ limit.toNat := by
  unfold fetch_data
  rcases hE : execFetch db.store (buildFetchQuery db limit offset filters sortCol sortAsc)
      with _ | rs
  · simp
  · simpa using execFetch_length_le _ _ _ hE

/-- Under a healthy context the slice query succeeds and its result is a
page cut from a list of exactly the matching rows. -/
theorem execFetch_of_good (m : ModelState) (off : Int) (hg : goodCtx m = true) :
    ∃ rs : List DBRow, rs.length = ctxMatchCount m ∧
      execFetch m.db.store (buildFetchQuery m.db PAGE_SIZE off m.filters m.sortColName m.sortAsc)
        = .ok ((rs.drop off.toNat).take PAGE_SIZE.toNat) := by
  unfold goodCtx at hg
  simp only [Bool.and_eq_true, Bool.not_eq_true'] at hg
  obtain ⟨⟨hf, hcv⟩, hob⟩ := hg
  have hf' : ¬ (m.db.store.fetchFails = true) := by simp [hf]
  have hw : evalWhere m.db.store
      (buildFetchQuery m.db PAGE_SIZE off m.filters m.sortColName m.sortAsc).conds
      = .ok (m.db.store.rows.filter (rowMatches m.db.store.schema (whereConds m.filters))) := by
    simp [evalWhere, buildFetchQuery, hcv]
  rcases ho : (buildFetchQuery m.db PAGE_SIZE off m.filters m.sortColName m.sortAsc).orderBy
      with _ | ⟨c, asc⟩
  · refine ⟨m.db.store.rows.filter (rowMatches m.db.store.schema (whereConds m.filters)),
      rfl, ?_⟩
    unfold execFetch
    rw [if_neg hf', hw, ho]
    rfl
  · have hc : (colIndex m.db.store.schema c).isSome = true := by
      have he : effOrderBy m.db m.sortColName m.sortAsc = some (c, asc) := by
        simpa [buildFetchQuery] using ho
      rw [he] at hob
      exact hob
    rcases hi : colIndex m.db.store.schema c with _ | i
    · rw [hi] at hc
      simp at hc
    · refine ⟨sortLE (rowLE i asc)
        (m.db.store.rows.filter (rowMatches m.db.store.schema (whereConds m.filters))),
        by rw [sortLE_length]; rfl, ?_⟩
      unfold execFetch
      simp only [if_neg hf', hw, ho, hi]
      rfl

/-- Under a healthy context the fetched page has exactly
`min pageSize (matching - offset)` rows. -/
theorem fetch_len_of_good (m : ModelState) (off : Int) (hg : goodCtx m = true) :
    (fetch_data m.db PAGE_SIZE off m.filters m.sortColName m.sortAsc).length
      = min PAGE_SIZE.toNat (ctxMatchCount m - off.toNat) := by
  obtain ⟨rs, hlen, hE⟩ := execFetch_of_good m off hg
  unfold fetch_data
  rw [hE, List.length_take, List.length_drop, hlen]

/-! ## Claims -/

/-- C2: for every rowIndex outside the row range or columnIndex outside
the column range, `value` returns absent (no fault), leaves the state
unchanged, and issues no fetch. -/
theorem c2_out_of_range_absent (m : ModelState) (row col : Int)
    (h : row < 0 ∨ (rowCount m : Int) ≤ row ∨ col < 0 ∨ (columnCount m : Int) ≤ col) :
    value m row col = { state := m, result := none, calls := [] } := by
  apply value_oob
  simp only [inBounds, decide_eq_false_iff_not]
  omega

/-- C2 witness: `value(rowCount(), 0)` on the concrete two-row model. -/
theorem c2_out_of_range_absent_witness :
    ((2 : Int) < 0 ∨ (rowCount mW : Int) ≤ 2 ∨ (0 : Int) < 0 ∨ (columnCount mW : Int) ≤ 0)
    ∧ value mW 2 0 = { state := mW, result := none, calls := [] } :=
  ⟨by right; left; decide, c2_out_of_range_absent mW 2 0 (by right; left; decide)⟩

/-- C3: whenever the store's count, slice and distinct queries fail, the
manager returns 0, the empty sequence and the empty sequence instead of
propagating the failure. -/
theorem c3_degrade_to_empty (db : DBManager) (filters : List (String × String))
    (limit offset : Int) (sortCol : Option String) (sortAsc : Bool) (column : String)
    (h1 : execCount db.store (whereConds filters) = .error ())
    (h2 : execFetch db.store (buildFetchQuery db limit offset filters sortCol sortAsc) = .error ())
    (h3 : execDistinct db.store column = .error ()) :
    get_total_count db filters = 0
    ∧ fetch_data db limit offset filters sortCol sortAsc = []
    ∧ get_distinct_values db column = [] := by
  refine ⟨?_, ?_, ?_⟩
  · simp [get_total_count, h1]
  · simp [fetch_data, h2]
  · unfold get_distinct_values
    rw [h3]
    split
    · rfl
    · rfl

/-- C3 witness: a store with all three fault flags set. -/
theorem c3_degrade_to_empty_witness :
    execCount dbF.store (whereConds []) = .error ()
    ∧ execFetch dbF.store (buildFetchQuery dbF 2000 0 [] none true) = .error ()
    ∧ execDistinct dbF.store "a" = .error ()
    ∧ (get_total_count dbF [] = 0
       ∧ fetch_data dbF 2000 0 [] none true = []
       ∧ get_distinct_values dbF "a" = []) :=
  ⟨rfl, rfl, rfl, c3_degrade_to_empty dbF [] 2000 0 none true "a" rfl rfl rfl⟩

/-- C6 counterexample: with the store opening fine but the `roms` table
absent, `connect` succeeds (with an empty column list) instead of
failing — `_load_column_names` catches the schema error. -/
theorem c6_counterexample_missing_table :
    envMissingTable.tableMissing = true
    ∧ connect envMissingTable = .ok { store := stW, columns := [] } :=
  ⟨rfl, rfl⟩

/-- C6 (amended): `connect` fails exactly when the store cannot be
opened; a missing table is absorbed, leaving an empty schema on a
successful connect. -/
theorem c6_connect_amended (env : StoreEnv) :
    (env.openFails = true → connect env = .error ())
    ∧ (env.openFails = false →
        connect env = .ok { store := env.store, columns := loadColumnNames env })
    ∧ (env.openFails = false → env.tableMissing = true →
        connect env = .ok { store := env.store, columns := [] }) := by
  refine ⟨fun h => by simp [connect, h], fun h => by simp [connect, h],
    fun h ht => by simp [connect, loadColumnNames, h, ht]⟩

/-- C6 witness: the amended statement applied to the missing-table
environment. -/
theorem c6_connect_amended_witness :
    envMissingTable.openFails = false
    ∧ envMissingTable.tableMissing = true
    ∧ ((envMissingTable.openFails = true → connect envMissingTable = .error ())
       ∧ (envMissingTable.openFails = false →
           connect envMissingTable
             = .ok { store := envMissingTable.store, columns := loadColumnNames envMissingTable })
       ∧ (envMissingTable.openFails = false → envMissingTable.tableMissing = true →
           connect envMissingTable = .ok { store := envMissingTable.store, columns := [] })) :=
  ⟨rfl, rfl, c6_connect_amended envMissingTable⟩

/-- C10 counterexample: on the two-column model, `sort(-1, asc)` is an
index outside `[0, columnCount())` yet it does not fault — Python list
indexing wraps, picking the last column. -/
theorem c10_counterexample_negative_sort :
    ((-1 : Int) < 0 ∨ (columnCount mW : Int) ≤ -1)
    ∧ (sortOp mW (-1) true).isSome = true
    ∧ (sortOp mW (-1) true).map (fun m => m.sortColName) = some (some "title") :=
  ⟨Or.inl (by decide), by decide, by decide⟩

/-- C10 (amended): `sort(column, order)` raises an uncaught IndexError
exactly when `column` is outside `[-columnCount(), columnCount())`; a
negative index in `[-columnCount(), 0)` does not fault (it wraps to a
column counted from the end). -/
theorem c10_sort_amended (m : ModelState) (column : Int) (asc : Bool) :
    (column < -(columnCount m : Int) ∨ (columnCount m : Int) ≤ column →
      sortOp m column asc = none)
    ∧ (-(columnCount m : Int) ≤ column → column < (columnCount m : Int) →
      (sortOp m column asc).isSome = true) := by
  constructor
  · intro h
    have hn : pyGet m.db.columns column = none := by
      rw [pyGet_eq_none_iff]
      have : m.db.columns.length = columnCount m := rfl
      omega
    simp [sortOp, hn]
  · intro h1 h2
    have hs : (pyGet m.db.columns column).isSome = true := by
      rw [pyGet_isSome_iff]
      have : m.db.columns.length = columnCount m := rfl
      omega
    rcases ho : pyGet m.db.columns column with _ | name
    · rw [ho] at hs; simp at hs
    · simp [sortOp, ho]

/-- C10 witness: the amended statement applied at `column = -1` and at
an overflowing positive column. -/
theorem c10_sort_amended_witness :
    (-(columnCount mW : Int) ≤ -1) ∧ ((-1 : Int) < (columnCount mW : Int))
    ∧ (((-1 : Int) < -(columnCount mW : Int) ∨ (columnCount mW : Int) ≤ -1 →
         sortOp mW (-1) true = none)
       ∧ (-(columnCount mW : Int) ≤ -1 → (-1 : Int) < (columnCount mW : Int) →
         (sortOp mW (-1) true).isSome = true)) :=
  ⟨by decide, by decide, c10_sort_amended mW (-1) true⟩

/-! ## Filter-dictionary lemmas (Python dict semantics) -/

theorem lookupFilter_cons (p : String × String) (ps : List (String × String)) (c : String) :
    lookupFilter (p :: ps) c = if p.1 = c then some p.2 else lookupFilter ps c := by
  unfold lookupFilter
  by_cases h : p.1 = c
  · rw [List.find?_cons_of_pos _ (by simp [h]), if_pos h]
    rfl
  · rw [List.find?_cons_of_neg _ (by simp [h]), if_neg h]

theorem dictDel_cons (p : String × String) (ps : List (String × String)) (k : String) :
    dictDel (p :: ps) k = if p.1 = k then dictDel ps k else p :: dictDel ps k := by
  unfold dictDel
  rw [List.filter_cons]
  by_cases h : p.1 = k
  · simp [h]
  · simp [h]

theorem dictSet_cons_of_mem (p : String × String) (ps : List (String × String)) (k v : String)
    (ha : ((p :: ps).any fun q => q.1 == k) = true) :
    dictSet (p :: ps) k v
      = (if p.1 = k then (k, v) else p) :: (ps.map fun q => if q.1 == k then (k, v) else q) := by
  unfold dictSet
  rw [if_pos ha, List.map_cons]
  by_cases h : p.1 = k
  · simp [h]
  · simp [h]

theorem lookupFilter_dictDel_self (d : List (String × String)) (k : String) :
    lookupFilter (dictDel d k) k = none := by
  induction d with
  | nil => rfl
  | cons p ps ih =>
    rw [dictDel_cons]
    by_cases h : p.1 = k
    · rw [if_pos h]
      exact ih
    · rw [if_neg h, lookupFilter_cons, if_neg h]
      exact ih

theorem lookupFilter_dictDel_other (d : List (String × String)) (k c : String)
    (hne : c ≠ k) : lookupFilter (dictDel d k) c = lookupFilter d c := by
  induction d with
  | nil => rfl
  | cons p ps ih =>
    rw [dictDel_cons, lookupFilter_cons]
    by_cases h : p.1 = k
    · have hpc : ¬ p.1 = c := by rw [h]; exact fun hh => hne hh.symm
      rw [if_pos h, if_neg hpc]
      exact ih
    · rw [if_neg h, lookupFilter_cons]
      by_cases hpc : p.1 = c
      · rw [if_pos hpc, if_pos hpc]
      · rw [if_neg hpc, if_neg hpc]
        exact ih

theorem lookupFilter_map_replace (d : List (String × String)) (k v : String) :
    lookupFilter (d.map fun q => if q.1 == k then (k, v) else q) k
      = if (d.any fun q => q.1 == k) = true then some v else none := by
  induction d with
  | nil => rfl
  | cons p ps ih =>
    rw [List.map_cons, List.any_cons]
    by_cases h : p.1 = k
    · have hhead : (if p.1 == k then ((k, v) : String × String) else p) = (k, v) := by
        simp [h]
      rw [hhead, lookupFilter_cons, if_pos rfl, if_pos (by simp [h])]
    · have hhead : (if p.1 == k then ((k, v) : String × String) else p) = p := by
        simp [h]
      rw [hhead, lookupFilter_cons, if_neg h, ih]
      have hb : (p.1 == k || ps.any fun q => q.1 == k) = (ps.any fun q => q.1 == k) := by
        simp [h]
      rw [hb]

theorem lookupFilter_append_single (d : List (String × String)) (k v : String)
    (h : (d.any fun q => q.1 == k) = false) :
    lookupFilter (d ++ [(k, v)]) k = some v := by
  induction d with
  | nil => simp [lookupFilter_cons]
  | cons p ps ih =>
    rw [List.any_cons, Bool.or_eq_false_iff] at h
    rw [List.cons_append, lookupFilter_cons, if_neg (by simpa using h.1)]
    exact ih h.2

theorem lookupFilter_dictSet_self (d : List (String × String)) (k v : String) :
    lookupFilter (dictSet d k v) k = some v := by
  unfold dictSet
  by_cases ha : (d.any fun q => q.1 == k) = true
  · rw [if_pos ha, lookupFilter_map_replace, if_pos ha]
  · rw [if_neg ha]
    exact lookupFilter_append_single _ _ _ (Bool.eq_false_iff.mpr ha)

theorem lookupFilter_map_replace_other (d : List (String × String)) (k v c : String)
    (hne : c ≠ k) :
    lookupFilter (d.map fun q => if q.1 == k then (k, v) else q) c = lookupFilter d c := by
  induction d with
  | nil => rfl
  | cons p ps ih =>
    rw [List.map_cons]
    by_cases h : p.1 = k
    · have hhead : (if p.1 == k then ((k, v) : String × String) else p) = (k, v) := by
        simp [h]
      have hpc : ¬ p.1 = c := by rw [h]; exact fun hh => hne hh.symm
      have hkc : ¬ ((k, v) : String × String).1 = c := fun hh => hne hh.symm
      rw [hhead, lookupFilter_cons, lookupFilter_cons, if_neg hpc, if_neg hkc]
      exact ih
    · have hhead : (if p.1 == k then ((k, v) : String × String) else p) = p := by
        simp [h]
      rw [hhead, lookupFilter_cons, lookupFilter_cons]
      by_cases hpc : p.1 = c
      · rw [if_pos hpc, if_pos hpc]
      · rw [if_neg hpc, if_neg hpc]
        exact ih

theorem lookupFilter_append_single_other (d : List (String × String)) (k v c : String)
    (hne : c ≠ k) :
    lookupFilter (d ++ [(k, v)]) c = lookupFilter d c := by
  induction d with
  | nil =>
    rw [List.nil_append, lookupFilter_cons, if_neg (fun hh => hne hh.symm)]
  | cons p ps ih =>
    rw [List.cons_append, lookupFilter_cons, lookupFilter_cons]
    by_cases hpc : p.1 = c
    · rw [if_pos hpc, if_pos hpc]
    · rw [if_neg hpc, if_neg hpc]
      exact ih

theorem lookupFilter_dictSet_other (d : List (String × String)) (k v c : String)
    (hne : c ≠ k) : lookupFilter (dictSet d k v) c = lookupFilter d c := by
  unfold dictSet
  split
  · exact lookupFilter_map_replace_other d k v c hne
  · exact lookupFilter_append_single_other d k v c hne

theorem noEmptyVals_dictDel (d : List (String × String)) (k : String)
    (h : noEmptyVals d = true) : noEmptyVals (dictDel d k) = true := by
  rw [noEmptyVals, List.all_eq_true] at h ⊢
  intro p hp
  exact h p (List.mem_of_mem_filter hp)

theorem noEmptyVals_dictSet (d : List (String × String)) (k v : String)
    (hv : v ≠ "") (h : noEmptyVals d = true) : noEmptyVals (dictSet d k v) = true := by
  rw [noEmptyVals, List.all_eq_true] at h ⊢
  unfold dictSet
  split
  · intro p hp
    rcases List.mem_map.mp hp with ⟨q, hq, rfl⟩
    by_cases h2 : (q.1 == k) = true
    · simp [h2, hv]
    · simp only [h2, Bool.false_eq_true, if_false]
      exact h q hq
  · intro p hp
    rcases List.mem_append.mp hp with h1 | h1
    · exact h p h1
    · rcases List.mem_singleton.mp h1 with rfl
      simpa using hv


/-- A read on an invalidated window always fetches. -/
theorem value_fetches_of_invalid (m : ModelState) (row col : Int)
    (hv : m.cacheValid = false) (hb : inBounds m row col = true) :
    (value m row col).calls = [mkFetchCall m row]
    ∧ (value m row col).state.cacheValid = true := by
  have hc : isRowInCache m row = false := by simp [isRowInCache, hv]
  rw [value_miss m row col hb hc]
  exact ⟨rfl, rfl⟩

/-- C4: after `setFilter(column, pat)` the total row count is the store
count under the updated filter set (the column's constraint replaced by
`pat`, removed when `pat` is empty, other columns untouched, and no
empty-string constraint ever stored), the window is invalid, and the
very next in-range `value()` call fetches. -/
theorem c4_set_filter_refreshes (m : ModelState) (column pat c : String)
    (row col : Int) (hc : c ≠ column) :
    (set_filter m column pat).totalRows
      = get_total_count m.db (set_filter m column pat).filters
    ∧ (set_filter m column pat).cacheValid = false
    ∧ (set_filter m column pat).cacheData = []
    ∧ lookupFilter (set_filter m column pat).filters column
      = (if pat = "" then none else some pat)
    ∧ lookupFilter (set_filter m column pat).filters c = lookupFilter m.filters c
    ∧ (noEmptyVals m.filters = true → noEmptyVals (set_filter m column pat).filters = true)
    ∧ (inBounds (set_filter m column pat) row col = true →
        (value (set_filter m column pat) row col).calls
          = [mkFetchCall (set_filter m column pat) row]) := by
  refine ⟨rfl, rfl, rfl, ?_, ?_, ?_, ?_⟩
  · by_cases hp : pat = ""
    · rw [if_pos hp]
      show lookupFilter (if pat = "" then dictDel m.filters column
        else dictSet m.filters column pat) column = none
      rw [if_pos hp]
      exact lookupFilter_dictDel_self _ _
    · rw [if_neg hp]
      show lookupFilter (if pat = "" then dictDel m.filters column
        else dictSet m.filters column pat) column = some pat
      rw [if_neg hp]
      exact lookupFilter_dictSet_self _ _ _
  · show lookupFilter (if pat = "" then dictDel m.filters column
      else dictSet m.filters column pat) c = lookupFilter m.filters c
    by_cases hp : pat = ""
    · rw [if_pos hp]
      exact lookupFilter_dictDel_other _ _ _ hc
    · rw [if_neg hp]
      exact lookupFilter_dictSet_other _ _ _ _ hc
  · intro h
    show noEmptyVals (if pat = "" then dictDel m.filters column
      else dictSet m.filters column pat) = true
    by_cases hp : pat = ""
    · rw [if_pos hp]
      exact noEmptyVals_dictDel _ _ h
    · rw [if_neg hp]
      exact noEmptyVals_dictSet _ _ _ hp h
  · intro hb
    exact (value_fetches_of_invalid _ row col rfl hb).1

/-- C4 witness: applying a filter on the two-row model and reading
row 0 afterwards. -/
theorem c4_set_filter_refreshes_witness :
    ("title" : String) ≠ "platform"
    ∧ ((set_filter mW "platform" "ami").totalRows
        = get_total_count mW.db (set_filter mW "platform" "ami").filters
      ∧ (set_filter mW "platform" "ami").cacheValid = false
      ∧ (set_filter mW "platform" "ami").cacheData = []
      ∧ lookupFilter (set_filter mW "platform" "ami").filters "platform"
        = (if ("ami" : String) = "" then none else some "ami")
      ∧ lookupFilter (set_filter mW "platform" "ami").filters "title"
        = lookupFilter mW.filters "title"
      ∧ (noEmptyVals mW.filters = true →
          noEmptyVals (set_filter mW "platform" "ami").filters = true)
      ∧ (inBounds (set_filter mW "platform" "ami") 0 0 = true →
          (value (set_filter mW "platform" "ami") 0 0).calls
            = [mkFetchCall (set_filter mW "platform" "ami") 0])) :=
  ⟨by decide, c4_set_filter_refreshes mW "platform" "ami" "title" 0 0 (by decide)⟩

/-! ## Window-membership lemmas -/

theorem inBounds_iff (m : ModelState) (row col : Int) :
    inBounds m row col = true ↔
      (0 ≤ row ∧ row < (rowCount m : Int) ∧ 0 ≤ col ∧ col < (columnCount m : Int)) := by
  unfold inBounds
  exact decide_eq_true_iff

theorem isRowInCache_iff (m : ModelState) (row : Int) :
    isRowInCache m row = true ↔
      (m.cacheValid = true ∧ 0 < m.cacheData.length ∧ m.cacheOffset ≤ row
        ∧ row < m.cacheOffset + (m.cacheData.length : Int)) := by
  unfold isRowInCache
  by_cases hcond : (!m.cacheValid || m.cacheData.isEmpty) = true
  · rw [if_pos hcond]
    constructor
    · intro h
      exact absurd h (by simp)
    · rintro ⟨h1, h2, -, -⟩
      exfalso
      rw [h1] at hcond
      simp only [Bool.not_true, Bool.false_or, List.isEmpty_iff] at hcond
      rw [hcond] at h2
      simp at h2
  · rw [if_neg hcond]
    simp only [Bool.or_eq_true, Bool.not_eq_true', List.isEmpty_iff] at hcond
    push_neg at hcond
    obtain ⟨hv, he⟩ := hcond
    have hv' : m.cacheValid = true := by
      cases hb : m.cacheValid
      · exact absurd hb hv
      · rfl
    have hpos : 0 < m.cacheData.length := List.length_pos.mpr he
    rw [decide_eq_true_iff]
    simp [hv', hpos]

/-- After a miss-fetch for `row` under a healthy consistent context,
every row of the aligned page that exists in the filtered data is in the
window. -/
theorem isRowInCache_after_fetch (m : ModelState) (row r : Int)
    (hg : goodCtx m = true) (hcount : m.totalRows = ctxMatchCount m)
    (hrow : 0 ≤ row)
    (hr1 : pageStartOf row ≤ r) (hr2 : r < pageStartOf row + PAGE_SIZE)
    (hrN : r < (m.totalRows : Int)) :
    isRowInCache (fetchPageContaining m row) r = true := by
  have hlen := fetch_len_of_good m (pageStartOf row) hg
  have hb := pageStartOf_bounds row hrow
  have hcd : (fetchPageContaining m row).cacheData
      = fetch_data m.db PAGE_SIZE (pageStartOf row) m.filters m.sortColName m.sortAsc := rfl
  have hco : (fetchPageContaining m row).cacheOffset = pageStartOf row := rfl
  rw [isRowInCache_iff, hcd, hco, hlen]
  have hP : PAGE_SIZE = (2000 : Int) := rfl
  have hPn : PAGE_SIZE.toNat = 2000 := rfl
  rw [hP] at hb hr2
  rw [hPn, hcount] at *
  refine ⟨rfl, ?_, hr1, ?_⟩
  · omega
  · omega

/-- C9: an in-range read whose row is in the window returns the cell
rendered as a string (never absent, no fetch), and rendering collapses a
NULL cell and a stored empty string to the same value "". -/
theorem c9_cached_read_renders (m : ModelState) (row col : Int)
    (hb : inBounds m row col = true) (hc : isRowInCache m row = true)
    (hwf : rowsWF m = true) :
    (cellAtCache m row col).isSome = true
    ∧ (value m row col).result = (cellAtCache m row col).map renderCell
    ∧ (value m row col).result.isSome = true
    ∧ (value m row col).calls = []
    ∧ renderCell none = "" ∧ renderCell (some (Val.vstr "")) = "" := by
  obtain ⟨hv, hpos, hlo, hhi⟩ := (isRowInCache_iff m row).mp hc
  obtain ⟨hr0, hrN, hc0, hcN⟩ := (inBounds_iff m row col).mp hb
  have hrow : (pyGet m.cacheData (row - m.cacheOffset)).isSome = true := by
    rw [pyGet_isSome_iff]
    omega
  rcases hrowE : pyGet m.cacheData (row - m.cacheOffset) with _ | r
  · rw [hrowE] at hrow
    simp at hrow
  · have hmem : r ∈ m.cacheData := by
      unfold pyGet at hrowE
      split at hrowE
      · exact List.getElem?_mem hrowE
      · split at hrowE
        · exact List.getElem?_mem hrowE
        · simp at hrowE
    have hrl : r.length = columnCount m := by
      rw [rowsWF, List.all_eq_true] at hwf
      simpa using hwf r hmem
    have hcol : (pyGet r col).isSome = true := by
      rw [pyGet_isSome_iff, hrl]
      omega
    rcases hcolE : pyGet r col with _ | cell
    · rw [hcolE] at hcol
      simp at hcol
    · have hcel : cellAtCache m row col = some cell := by
        unfold cellAtCache
        rw [hrowE]
        exact hcolE
      have hread : readCache m row col = some (renderCell cell) := by
        unfold readCache
        rw [hrowE]
        simp only [hcolE]
      rw [value_hit m row col hb hc]
      exact ⟨by rw [hcel]; rfl, by rw [hcel, hread]; rfl, by rw [hread]; rfl, rfl, rfl, rfl⟩

/-- C9 witness: reading the NULL cell (1,0) and the populated cell (0,0)
from the warmed-up two-row model. -/
theorem c9_cached_read_renders_witness :
    inBounds ((value mW 0 0).state) 1 0 = true
    ∧ isRowInCache ((value mW 0 0).state) 1 = true
    ∧ rowsWF ((value mW 0 0).state) = true
    ∧ ((cellAtCache ((value mW 0 0).state) 1 0).isSome = true
      ∧ (value ((value mW 0 0).state) 1 0).result
        = (cellAtCache ((value mW 0 0).state) 1 0).map renderCell
      ∧ (value ((value mW 0 0).state) 1 0).result.isSome = true
      ∧ (value ((value mW 0 0).state) 1 0).calls = []
      ∧ renderCell none = "" ∧ renderCell (some (Val.vstr "")) = "") :=
  ⟨by decide, by decide, by decide,
    c9_cached_read_renders ((value mW 0 0).state) 1 0 (by decide) (by decide) (by decide)⟩

/-- A successful WHERE evaluation yields exactly the matching rows. -/
theorem evalWhere_ok (st : Store) (conds : List (String × String)) (ws : List DBRow)
    (h : evalWhere st conds = .ok ws) :
    ws = st.rows.filter (rowMatches st.schema conds) := by
  unfold evalWhere at h
  split at h
  · simpa using h.symm
  · simp at h

/-- C8: the generated slice query carries an ordering clause iff the
given sort column is a known schema column (schemas have no empty
column name); at most `limit` rows come back; and with no ordering
clause the result is a sublist of the store's rows — store order. -/
theorem c8_order_clause_iff_known (db : DBManager) (limit offset : Int)
    (filters : List (String × String)) (sortCol : Option String) (sortAsc : Bool)
    (hne : db.columns.contains "" = false) :
    (buildFetchQuery db limit offset filters sortCol sortAsc).orderBy.isSome
      = sortColKnown db sortCol
    ∧ (fetch_data db limit offset filters sortCol sortAsc).length ≤ limit.toNat
    ∧ ((buildFetchQuery db limit offset filters sortCol sortAsc).orderBy = none →
        (fetch_data db limit offset filters sortCol sortAsc).Sublist db.store.rows) := by
  refine ⟨?_, fetch_data_length_le db limit offset filters sortCol sortAsc, ?_⟩
  · unfold buildFetchQuery effOrderBy sortColKnown
    rcases sortCol with _ | s
    · rfl
    · by_cases hs : s = ""
      · subst hs
        show (if (("" != "") && db.columns.contains "") = true
            then some ("", sortAsc) else none).isSome = db.columns.contains ""
        rw [hne]
        simp
      · have hsb : (s != "") = true := by simpa using hs
        show (if ((s != "") && db.columns.contains s) = true
            then some (s, sortAsc) else none).isSome = db.columns.contains s
        simp only [hsb, Bool.true_and]
        by_cases hcon : db.columns.contains s = true
        · rw [if_pos hcon, hcon]
          rfl
        · rw [if_neg hcon, Bool.eq_false_iff.mpr hcon]
          rfl
  · intro ho
    unfold fetch_data
    rcases hE : execFetch db.store (buildFetchQuery db limit offset filters sortCol sortAsc)
        with _ | rs
    · exact List.nil_sublist _
    · unfold execFetch at hE
      split at hE
      · simp at hE
      · split at hE
        · simp at hE
        · rename_i ws hw
          rw [ho] at hE
          simp only [Except.ok.injEq] at hE
          subst hE
          rw [evalWhere_ok _ _ _ hw]
          exact ((List.take_sublist _ _).trans (List.drop_sublist _ _)).trans
            (List.filter_sublist _)

/-- C8 witness: a known sort column on the two-row store. -/
theorem c8_order_clause_iff_known_witness :
    dbW.columns.contains "" = false
    ∧ ((buildFetchQuery dbW 2000 0 [] (some "title") true).orderBy.isSome
        = sortColKnown dbW (some "title")
      ∧ (fetch_data dbW 2000 0 [] (some "title") true).length ≤ (2000 : Int).toNat
      ∧ ((buildFetchQuery dbW 2000 0 [] (some "title") true).orderBy = none →
          (fetch_data dbW 2000 0 [] (some "title") true).Sublist dbW.store.rows)) :=
  ⟨by decide, c8_order_clause_iff_known dbW 2000 0 [] (some "title") true (by decide)⟩

/-- C5: with no mutation in between, reading the same valid cell twice
returns the same value both times, triggers no second fetch, and leaves
the state where the first read put it. -/
theorem c5_idempotent_read (m : ModelState) (row col : Int)
    (hg : goodCtx m = true) (hcount : m.totalRows = ctxMatchCount m)
    (hb : inBounds m row col = true) :
    (value (value m row col).state row col).result = (value m row col).result
    ∧ (value (value m row col).state row col).calls = []
    ∧ (value (value m row col).state row col).state = (value m row col).state := by
  obtain ⟨hr0, hrN, hc0, hcN⟩ := (inBounds_iff m row col).mp hb
  by_cases hc : isRowInCache m row = true
  · simp only [value_hit m row col hb hc]
    simp
  · have hcf : isRowInCache m row = false := Bool.eq_false_iff.mpr hc
    simp only [value_miss m row col hb hcf]
    have hpb := pageStartOf_bounds row hr0
    have hc2 : isRowInCache (fetchPageContaining m row) row = true :=
      isRowInCache_after_fetch m row row hg hcount hr0 hpb.2.1 hpb.2.2 hrN
    have hb2 : inBounds (fetchPageContaining m row) row col = true := hb
    simp only [value_hit _ row col hb2 hc2]
    simp

/-- C5 witness: reading cell (1, 1) of the two-row model twice. -/
theorem c5_idempotent_read_witness :
    goodCtx mW = true ∧ mW.totalRows = ctxMatchCount mW ∧ inBounds mW 1 1 = true
    ∧ ((value (value mW 1 1).state 1 1).result = (value mW 1 1).result
      ∧ (value (value mW 1 1).state 1 1).calls = []
      ∧ (value (value mW 1 1).state 1 1).state = (value mW 1 1).state) :=
  ⟨rfl, rfl, by decide, c5_idempotent_read mW 1 1 rfl rfl (by decide)⟩

/-- C1: an in-range read that misses the window issues exactly one fetch
with limit = pageSize and offset = floor(rowIndex / pageSize) * pageSize
and afterwards the window starts at that offset; reading k then k+1 with
k+1 inside the same page costs at most one fetch in total; reading row 0
and then row pageSize from an invalid window costs exactly two. -/
theorem c1_page_aligned_fetch (m : ModelState) (row col k : Int)
    (hg : goodCtx m = true) (hcount : m.totalRows = ctxMatchCount m)
    (hcol : 0 ≤ col ∧ col < (columnCount m : Int)) :
    (0 ≤ row → row < (rowCount m : Int) → isRowInCache m row = false →
      (value m row col).calls
        = [{ limit := PAGE_SIZE, offset := Int.fdiv row PAGE_SIZE * PAGE_SIZE,
             filters := m.filters, sortCol := m.sortColName, sortAsc := m.sortAsc }]
      ∧ (value m row col).state.cacheOffset = Int.fdiv row PAGE_SIZE * PAGE_SIZE)
    ∧ (0 ≤ k → k + 1 < (rowCount m : Int) → (k + 1) % PAGE_SIZE ≠ 0 →
      (value m k col).calls.length
        + (value (value m k col).state (k + 1) col).calls.length ≤ 1)
    ∧ (m.cacheValid = false → PAGE_SIZE < (rowCount m : Int) →
      (value m 0 col).calls.length
        + (value (value m 0 col).state PAGE_SIZE col).calls.length = 2) := by
  have hP : PAGE_SIZE = (2000 : Int) := rfl
  refine ⟨?_, ?_, ?_⟩
  · intro h0 hN hmiss
    have hb : inBounds m row col = true := (inBounds_iff m row col).mpr ⟨h0, hN, hcol.1, hcol.2⟩
    rw [value_miss m row col hb hmiss]
    exact ⟨rfl, rfl⟩
  · intro hk0 hk1 hkb
    have hbk : inBounds m k col = true :=
      (inBounds_iff m k col).mpr ⟨hk0, by omega, hcol.1, hcol.2⟩
    have hbk1 : inBounds m (k + 1) col = true :=
      (inBounds_iff m (k + 1) col).mpr ⟨by omega, hk1, hcol.1, hcol.2⟩
    by_cases hc : isRowInCache m k = true
    · simp only [value_hit m k col hbk hc]
      simpa using value_calls_le_one m (k + 1) col
    · have hcf : isRowInCache m k = false := Bool.eq_false_iff.mpr hc
      simp only [value_miss m k col hbk hcf]
      have hpb := pageStartOf_bounds k hk0
      have hps : k + 1 < pageStartOf k + PAGE_SIZE := by
        obtain ⟨n, rfl⟩ := Int.eq_ofNat_of_zero_le hk0
        rw [pageStartOf_cast, hP]
        rw [hP] at hkb
        omega
      have hr1 : pageStartOf k ≤ k + 1 := by
        have := hpb.2.1
        omega
      have hc2 : isRowInCache (fetchPageContaining m k) (k + 1) = true :=
        isRowInCache_after_fetch m k (k + 1) hg hcount hk0 hr1 hps hk1
      have hb2 : inBounds (fetchPageContaining m k) (k + 1) col = true := hbk1
      simp only [value_hit _ (k + 1) col hb2 hc2]
      simp
  · intro hv hPN
    have hb0 : inBounds m 0 col = true :=
      (inBounds_iff m 0 col).mpr ⟨le_refl 0, by rw [hP] at hPN; omega, hcol.1, hcol.2⟩
    have hc0 : isRowInCache m 0 = false := by
      simp [isRowInCache, hv]
    simp only [value_miss m 0 col hb0 hc0]
    have hb2 : inBounds (fetchPageContaining m 0) PAGE_SIZE col = true :=
      (inBounds_iff m PAGE_SIZE col).mpr ⟨by rw [hP]; omega, hPN, hcol.1, hcol.2⟩
    have hc2 : isRowInCache (fetchPageContaining m 0) PAGE_SIZE = false := by
      rw [Bool.eq_false_iff]
      intro hcontra
      obtain ⟨-, -, -, hhi⟩ := (isRowInCache_iff _ _).mp hcontra
      have hlen := fetch_len_of_good m 0 hg
      have hco : (fetchPageContaining m 0).cacheOffset = 0 := rfl
      have hcd : (fetchPageContaining m 0).cacheData
          = fetch_data m.db PAGE_SIZE 0 m.filters m.sortColName m.sortAsc := rfl
      rw [hco, hcd, hlen] at hhi
      have hPn : PAGE_SIZE.toNat = 2000 := rfl
      rw [hPn, hP] at hhi
      omega
    simp only [value_miss _ PAGE_SIZE col hb2 hc2]
    simp

set_option maxRecDepth 40000 in
/-- C1 witness: the 2500-row model, reading row 0 (part one at row 0,
part two at k = 5, part three at rows 0 and 2000). -/
theorem c1_page_aligned_fetch_witness :
    goodCtx mBig = true ∧ mBig.totalRows = ctxMatchCount mBig
    ∧ ((0 : Int) ≤ 0 ∧ (0 : Int) < (columnCount mBig : Int))
    ∧ (((0 : Int) ≤ 0 → (0 : Int) < (rowCount mBig : Int) → isRowInCache mBig 0 = false →
        (value mBig 0 0).calls
          = [{ limit := PAGE_SIZE, offset := Int.fdiv 0 PAGE_SIZE * PAGE_SIZE,
               filters := mBig.filters, sortCol := mBig.sortColName, sortAsc := mBig.sortAsc }]
        ∧ (value mBig 0 0).state.cacheOffset = Int.fdiv 0 PAGE_SIZE * PAGE_SIZE)
      ∧ ((0 : Int) ≤ 5 → (5 : Int) + 1 < (rowCount mBig : Int) → ((5 : Int) + 1) % PAGE_SIZE ≠ 0 →
        (value mBig 5 0).calls.length
          + (value (value mBig 5 0).state (5 + 1) 0).calls.length ≤ 1)
      ∧ (mBig.cacheValid = false → PAGE_SIZE < (rowCount mBig : Int) →
        (value mBig 0 0).calls.length
          + (value (value mBig 0 0).state PAGE_SIZE 0).calls.length = 2)) :=
  ⟨rfl, rfl, by decide, c1_page_aligned_fetch mBig 0 0 5 rfl rfl (by decide)⟩

/-- The window invariant holds in every reachable state: a valid window
has at most one page of rows and a page-aligned start. -/
theorem reachable_window_inv (db : DBManager) (m : ModelState) (h : Reachable db m) :
    m.cacheValid = true → (m.cacheData.length ≤ PAGE_SIZE.toNat ∧ PAGE_SIZE ∣ m.cacheOffset) := by
  induction h with
  | init =>
    intro hv
    simp [initModel, refresh] at hv
  | readStep m row col hr ih =>
    intro hv
    by_cases hb : inBounds m row col = true
    · by_cases hc : isRowInCache m row = true
      · simp only [value_hit m row col hb hc] at hv ⊢
        exact ih hv
      · simp only [value_miss m row col hb (Bool.eq_false_iff.mpr hc)] at hv ⊢
        exact ⟨fetch_data_length_le m.db PAGE_SIZE (pageStartOf row) m.filters
          m.sortColName m.sortAsc, pageStartOf_dvd row⟩
    · simp only [value_oob m row col (Bool.eq_false_iff.mpr hb)] at hv ⊢
      exact ih hv
  | filterStep m c v hr ih =>
    intro hv
    simp [set_filter, refresh] at hv
  | clearStep m hr ih =>
    intro hv
    simp [clear_filters, refresh] at hv
  | sortSucc m c asc m' hr hs ih =>
    intro hv
    unfold sortOp at hs
    rcases hpg : pyGet m.db.columns c with _ | name
    · rw [hpg] at hs
      simp at hs
    · rw [hpg] at hs
      simp only [Option.some.injEq] at hs
      subst hs
      simp [refresh] at hv
  | refreshStep m hr ih =>
    intro hv
    simp [refresh] at hv

/-- C7: in every reachable state a valid window holds at most pageSize
rows (its length, a natural number, is of course at least 0) and starts
at a multiple of pageSize; the window is invalid after construction and
after every filter or sort mutation (and after a bare refresh); and on
an invalidated window the next in-range read fetches and leaves the
window valid. -/
theorem c7_window_invariant (db : DBManager) (m m1 : ModelState) (c v : String)
    (ci row col : Int) (asc : Bool) (hreach : Reachable db m) :
    (m.cacheValid = true → (m.cacheData.length ≤ PAGE_SIZE.toNat ∧ PAGE_SIZE ∣ m.cacheOffset))
    ∧ (initModel db).cacheValid = false
    ∧ (set_filter m c v).cacheValid = false
    ∧ (clear_filters m).cacheValid = false
    ∧ (refresh m).cacheValid = false
    ∧ (sortOp m ci asc = some m1 → m1.cacheValid = false)
    ∧ (m.cacheValid = false → inBounds m row col = true →
        (value m row col).state.cacheValid = true
        ∧ (value m row col).calls = [mkFetchCall m row]) := by
  refine ⟨reachable_window_inv db m hreach, rfl, rfl, rfl, rfl, ?_, ?_⟩
  · intro hs
    unfold sortOp at hs
    rcases hpg : pyGet m.db.columns ci with _ | name
    · rw [hpg] at hs
      simp at hs
    · rw [hpg] at hs
      simp only [Option.some.injEq] at hs
      subst hs
      rfl
  · intro hv hb
    exact ⟨(value_fetches_of_invalid m row col hv hb).2,
      (value_fetches_of_invalid m row col hv hb).1⟩

/-- C7 witness: the freshly constructed model over the two-row store is
reachable, and the statement holds there. -/
theorem c7_window_invariant_witness :
    Reachable dbW (initModel dbW)
    ∧ (((initModel dbW).cacheValid = true →
        ((initModel dbW).cacheData.length ≤ PAGE_SIZE.toNat
          ∧ PAGE_SIZE ∣ (initModel dbW).cacheOffset))
      ∧ (initModel dbW).cacheValid = false
      ∧ (set_filter (initModel dbW) "platform" "x").cacheValid = false
      ∧ (clear_filters (initModel dbW)).cacheValid = false
      ∧ (refresh (initModel dbW)).cacheValid = false
      ∧ (sortOp (initModel dbW) 0 true = some (initModel dbW) →
          (initModel dbW).cacheValid = false)
      ∧ ((initModel dbW).cacheValid = false → inBounds (initModel dbW) 0 0 = true →
          (value (initModel dbW) 0 0).state.cacheValid = true
          ∧ (value (initModel dbW) 0 0).calls = [mkFetchCall (initModel dbW) 0])) :=
  ⟨Reachable.init,
    c7_window_invariant dbW (initModel dbW) (initModel dbW) "platform" "x" 0 0 0 true
      Reachable.init⟩
